import Mathlib

/-
Verification of the multi-tenant RAG pipeline (document ingestion, versioning,
chunking, department-filtered retrieval, blocking and streaming query
orchestration, result caching, query logging).

The definitions below are a shallow embedding of the Python source:
  * api/apps/documents/services.py  (chunker, versioning, ingestion)
  * api/core/vector_store.py        (filtered similarity search)
  * api/core/cache.py               (cache keys, payloads)
  * api/core/llm.py                 (streaming answer generation)
  * api/apps/rag/services.py        (rag_query, rag_query_stream, helpers)

Wall-clock quantities (latency_ms, stage timings) and the embedding vectors
themselves are runtime/provider data with no bearing on the stated claims and
are not modelled; similarity scores are modelled as rationals.
-/

-- ──────────────────────────────────────────────────────────────────────────
-- Chunker: documents/services.py, _chunk_text (lines 245-285)
-- ──────────────────────────────────────────────────────────────────────────

/-- Accumulating pass over the characters for `pySplit`: `cur` holds the
characters of the word being read, in reverse. -/
def pySplitAux : List Char → List Char → List String
  | [], cur => if cur.isEmpty then [] else [⟨cur.reverse⟩]
  | c :: cs, cur =>
    if c.isWhitespace then
      if cur.isEmpty then pySplitAux cs [] else ⟨cur.reverse⟩ :: pySplitAux cs []
    else
      pySplitAux cs (c :: cur)

/-- Python `text.split()` with no arguments: split on whitespace runs,
keeping no empty pieces (so a whitespace-only text has no words). -/
def pySplit (s : String) : List String :=
  pySplitAux s.data []

/-- The `while i < len(words)` loop of `_chunk_text`, at the level of word
lists (each produced chunk is the word slice `words[i : i + chunkSize]`;
`_chunk_text` joins each slice with a single space, see `chunkText`).
The loop advances `i` by `chunk_size - overlap` each iteration.  The Python
loop has no fuel: `fuel` makes the recursion well-founded, and `none` means
the fuel ran out before the loop finished.  For `overlap ≤ chunkSize` the
natural subtraction `chunkSize - overlap` agrees with Python's integer
subtraction, which is the regime of every lemma below. -/
def chunkGo (words : List String) (chunkSize overlap : Nat) :
    Nat → Nat → Option (List (List String))
  | 0, _ => none
  | fuel + 1, i =>
    if i < words.length then
      match chunkGo words chunkSize overlap fuel (i + (chunkSize - overlap)) with
      | none => none
      | some rest => some (((words.drop i).take chunkSize) :: rest)
    else
      some []

/-- `_chunk_text(text, chunk_size, overlap)`: empty word list returns `[]`
with no error; otherwise run the loop (fuel `|words| + 1` is enough whenever
`overlap < chunkSize`, proved below) and join each chunk's words with a
space, as `" ".join(chunk_words)` does.  `none` models a loop that does not
terminate. -/
def chunkText (text : String) (chunkSize overlap : Nat) : Option (List String) :=
  let words := pySplit text
  if words.isEmpty then
    some []
  else
    (chunkGo words chunkSize overlap (words.length + 1) 0).map
      (List.map (String.intercalate " "))

/-- Rejoining chunk contents with the overlap removed: the first chunk is
kept whole, every later chunk drops its first `overlap` words. -/
def reassembleWords (overlap : Nat) (cls : List (List String)) : List String :=
  match cls with
  | [] => []
  | c :: rest => c ++ (rest.map (List.drop overlap)).flatten

/-- With `overlap ≥ chunkSize` the loop body never advances `i`
(Python adds `chunk_size - overlap ≤ 0`): the loop never terminates,
whatever the fuel.  There is no configuration-error check in the code. -/
lemma chunkGo_no_progress (words : List String) (chunkSize overlap : Nat)
    (hov : chunkSize ≤ overlap) (hw : 0 < words.length) :
    ∀ fuel, chunkGo words chunkSize overlap fuel 0 = none := by
  intro fuel
  induction fuel with
  | zero => rfl
  | succ n ih =>
    have hsub : chunkSize - overlap = 0 := Nat.sub_eq_zero_of_le hov
    simp only [chunkGo, if_pos hw, hsub, Nat.add_zero, ih]

/-- Termination: with `overlap < chunkSize` the loop advances by at least one
word per iteration, so fuel `|words| - i + 1` suffices from position `i`. -/
lemma chunkGo_isSome (words : List String) (chunkSize overlap : Nat)
    (h : overlap < chunkSize) :
    ∀ fuel i, words.length - i < fuel →
      (chunkGo words chunkSize overlap fuel i).isSome := by
  intro fuel
  induction fuel with
  | zero => intro i hi; omega
  | succ n ih =>
    intro i hi
    by_cases hlen : i < words.length
    · have hstep : 1 ≤ chunkSize - overlap := by omega
      have hrec : words.length - (i + (chunkSize - overlap)) < n := by omega
      have := ih (i + (chunkSize - overlap)) hrec
      simp only [chunkGo, if_pos hlen]
      cases hgo : chunkGo words chunkSize overlap n (i + (chunkSize - overlap)) with
      | none => rw [hgo] at this; simp at this
      | some rest => simp
    · simp only [chunkGo, if_neg hlen, Option.isSome_some]

/-- Dropping the first `overlap` words of every chunk produced from position
`i` yields exactly the word suffix from position `i + overlap`. -/
lemma chunkGo_drop_flatten (words : List String) (chunkSize overlap : Nat)
    (h : overlap < chunkSize) :
    ∀ fuel i cls, chunkGo words chunkSize overlap fuel i = some cls →
      (cls.map (List.drop overlap)).flatten = words.drop (i + overlap) := by
  intro fuel
  induction fuel with
  | zero => intro i cls hcls; simp [chunkGo] at hcls
  | succ n ih =>
    intro i cls hcls
    by_cases hlen : i < words.length
    · simp only [chunkGo, if_pos hlen] at hcls
      cases hgo : chunkGo words chunkSize overlap n (i + (chunkSize - overlap)) with
      | none => rw [hgo] at hcls; simp at hcls
      | some rest =>
        rw [hgo] at hcls
        simp only [Option.some.injEq] at hcls
        subst hcls
        have hrest := ih (i + (chunkSize - overlap)) rest hgo
        simp only [List.map_cons, List.flatten_cons, hrest]
        have e1 : ((words.drop i).take chunkSize).drop overlap
            = (words.drop (i + overlap)).take (chunkSize - overlap) := by
          rw [List.drop_take, List.drop_drop]
        have e2 : (words.drop (i + overlap)).drop (chunkSize - overlap)
            = words.drop (i + (chunkSize - overlap) + overlap) := by
          rw [List.drop_drop]
          congr 1
          omega
        rw [e1, ← e2]
        exact List.take_append_drop _ _

    · simp only [chunkGo, if_neg hlen, Option.some.injEq] at hcls
      subst hcls
      simp only [List.map_nil, List.flatten_nil]
      have : words.length ≤ i + overlap := by omega
      exact (List.drop_eq_nil_of_le this).symm

/-- Round trip from position 0: the first chunk whole plus the later chunks
with their first `overlap` words removed is the whole word list. -/
lemma chunkGo_reassemble (words : List String) (chunkSize overlap : Nat)
    (h : overlap < chunkSize) :
    ∀ fuel cls, chunkGo words chunkSize overlap fuel 0 = some cls →
      reassembleWords overlap cls = words := by
  intro fuel cls hcls
  cases fuel with
  | zero => simp [chunkGo] at hcls
  | succ n =>
    by_cases hlen : 0 < words.length
    · simp only [chunkGo, if_pos hlen] at hcls
      cases hgo : chunkGo words chunkSize overlap n (0 + (chunkSize - overlap)) with
      | none => rw [hgo] at hcls; simp at hcls
      | some rest =>
        rw [hgo] at hcls
        simp only [Option.some.injEq] at hcls
        subst hcls
        have hrest := chunkGo_drop_flatten words chunkSize overlap h n
          (0 + (chunkSize - overlap)) rest hgo
        simp only [reassembleWords, List.drop_zero, hrest]
        have : 0 + (chunkSize - overlap) + overlap = chunkSize := by omega
        rw [this]
        exact List.take_append_drop _ _
    · simp only [chunkGo, if_neg hlen, Option.some.injEq] at hcls
      subst hcls
      have : words = [] := List.eq_nil_of_length_eq_zero (by omega)
      simp [reassembleWords, this]

-- ──────────────────────────────────────────────────────────────────────────
-- Data model: documents/models.py, rag/schemas.py, rag/models.py
-- ──────────────────────────────────────────────────────────────────────────

/-- A row of the `documents` table (the fields the claims touch; UUID ids are
opaque strings). -/
structure Doc where
  id : String
  title : String
  department : String
  docType : String
  version : Nat
  isActive : Bool
deriving DecidableEq

/-- The metadata payload upserted with each chunk vector
(documents/services.py lines 104-113). -/
structure VecMeta where
  content : String
  document_id : String
  department : String
  chunk_index : Nat
  title : String
  doc_type : String
  version : Nat
  is_active : Bool
deriving DecidableEq

/-- One record of the vector index together with its similarity score for the
query under consideration (the index is modelled as the ranked match list
Pinecone would return for the query's embedding). -/
structure ScoredVec where
  id : String
  meta : VecMeta
  score : ℚ
deriving DecidableEq

/-- The metadata filter dict both orchestrators pass to `VectorStore.search`:
`{"department": ..., "is_active": ...}`. -/
structure SearchFilter where
  department : String
  is_active : Bool
deriving DecidableEq

/-- Pinecone equality filtering on the metadata fields of the filter dict. -/
def matchesFilter (f : SearchFilter) (m : VecMeta) : Bool :=
  m.department == f.department && m.is_active == f.is_active

/-- One entry of the list `VectorStore.search` returns: `content`, `score`
and the metadata subset rebuilt at vector_store.py lines 153-163. -/
structure RetrievedDoc where
  content : String
  score : ℚ
  document_id : String
  title : String
  department : String
  chunk_index : Nat
  doc_type : String
deriving DecidableEq

/-- `VectorStore.search` (vector_store.py lines 110-171): Pinecone applies
the metadata filter, returns the `top_k = limit` best matches, and the
Python wrapper then keeps those with `score >= score_threshold`. -/
def vectorSearch (index : List ScoredVec) (f : SearchFilter) (limit : Nat)
    (scoreThreshold : ℚ) : List RetrievedDoc :=
  (((index.filter (fun e => matchesFilter f e.meta)).take limit).filter
      (fun e => scoreThreshold ≤ e.score)).map
    (fun e => ⟨e.meta.content, e.score, e.meta.document_id, e.meta.title,
      e.meta.department, e.meta.chunk_index, e.meta.doc_type⟩)

-- ──────────────────────────────────────────────────────────────────────────
-- Ingestion: documents/services.py, ingest_document and helpers
-- ──────────────────────────────────────────────────────────────────────────

/-- `VALID_DEPARTMENTS` (documents/services.py line 21). -/
def VALID_DEPARTMENTS : List String :=
  ["Sales", "HR", "Finance", "Operations", "Manufacturing", "IT"]

/-- `_get_next_version` (lines 158-187): max existing version of the
(title, department) pair plus one; 1 when the pair has no document.
`foldr max 0` is that maximum (0, hence version 1, on the empty list). -/
def getNextVersion (docs : List Doc) (title department : String) : Nat :=
  (((docs.filter (fun d => d.title == title && d.department == department)).map
      Doc.version).foldr max 0) + 1

/-- The filter `_deactivate_old_versions` fetches: same title, same
department, still active. -/
def pairActive (title department : String) (d : Doc) : Bool :=
  d.title == title && d.department == department && d.isActive

/-- `_deactivate_old_versions` (lines 190-242), relational part: fetch up to
100 active documents of the pair, and flip `is_active` to false on every
fetched row whose id differs from the newly created document's id. -/
def deactivateOldVersions (docs : List Doc) (title department currentId : String) :
    List Doc :=
  let olds := ((docs.filter (pairActive title department)).take 100).map Doc.id
  docs.map (fun d =>
    if olds.contains d.id && d.id != currentId then
      { d with isActive := false }
    else
      d)

/-- The chunk vector id assigned at documents/services.py line 100:
`f"{doc_id_str}_chunk_{idx}"`. -/
def vectorId (docId : String) (idx : Nat) : String :=
  docId ++ "_chunk_" ++ toString idx

/-- The upload payload (documents/schemas.py DocumentCreate; `source_url`
plays no role in the claims). -/
structure DocumentCreate where
  title : String
  department : String
  docType : String
  content : String
deriving DecidableEq

/-- One `vector_store.upsert` call of the ingestion loop. -/
structure VecUpsert where
  id : String
  meta : VecMeta
deriving DecidableEq

inductive IngestError where
  | invalidDepartment
  | permissionDenied
deriving DecidableEq

/-- What a successful `ingest_document` leaves behind: the document store
after commit, the assigned version, the vector upserts issued, and the chunk
count of the response. -/
structure IngestResult where
  store : List Doc
  version : Nat
  upserts : List VecUpsert
  chunkCount : Nat
deriving DecidableEq

/-- `ingest_document` (documents/services.py lines 24-155).  `newId` is the
UUID the BaseModel generates for the new row.  Chunking uses the call-site
configuration `chunk_size=500, overlap=50` (line 89); since 50 < 500 the
chunk loop terminates and the `getD []` default is never taken.  Embeddings
are provider data and are not modelled; the upsert metadata is built exactly
as at lines 101-114. -/
def ingestDocument (docs : List Doc) (data : DocumentCreate)
    (userDepartment newId : String) : Except IngestError IngestResult :=
  if ¬ VALID_DEPARTMENTS.contains data.department then
    .error .invalidDepartment
  else if userDepartment ≠ "IT" ∧ userDepartment ≠ data.department then
    .error .permissionDenied
  else
    let version := getNextVersion docs data.title data.department
    let newDoc : Doc := ⟨newId, data.title, data.department, data.docType, version, true⟩
    let docs1 := docs ++ [newDoc]
    let chunks := (chunkText data.content 500 50).getD []
    let upserts := ((List.range chunks.length).zip chunks).map (fun p =>
      { id := vectorId newId p.1,
        meta := { content := p.2, document_id := newId,
                  department := data.department, chunk_index := p.1,
                  title := data.title, doc_type := data.docType,
                  version := version, is_active := true } })
    let docs2 :=
      if version > 1 then
        deactivateOldVersions docs1 data.title data.department newId
      else
        docs1
    .ok ⟨docs2, version, upserts, chunks.length⟩

-- ──────────────────────────────────────────────────────────────────────────
-- Cache: core/cache.py (CacheManager.get_key) and rag/services.py helpers
-- ──────────────────────────────────────────────────────────────────────────

/-- Stand-in for `hashlib.md5(...).hexdigest()`: the claims depend only on
the key being a deterministic function of its input, so the digest is
modelled as the (injective) identity on the hashed text. -/
def md5Hex (s : String) : String := s

/-- Python `str.lower()` (character-wise lowering). -/
def pyLower (s : String) : String :=
  ⟨s.data.map Char.toLower⟩

/-- Python `str.strip()`: remove leading and trailing whitespace. -/
def pyStrip (s : String) : String :=
  ⟨((s.data.dropWhile Char.isWhitespace).reverse.dropWhile Char.isWhitespace).reverse⟩

/-- `CacheManager.get_key` (cache.py lines 41-57):
`rag:{department}:{md5((query.lower().strip() + ":" + department))}`. -/
def cacheGetKey (query department : String) : String :=
  "rag:" ++ department ++ ":" ++
    md5Hex (pyStrip (pyLower query) ++ ":" ++ department)

/-- A source entry of a query response (rag/schemas.py SourceDocument). -/
structure SourceDocument where
  document_id : String
  title : String
  department : String
  chunk_index : Nat
  doc_type : String
  relevance_score : ℚ
deriving DecidableEq

/-- Python `round(x, 3)` (half-to-even) on the modelled rational scores. -/
def pyRound3 (q : ℚ) : ℚ :=
  let x := q * 1000
  let f : ℤ := ⌊x⌋
  let n : ℤ :=
    if x - f < 1 / 2 then f
    else if 1 / 2 < x - f then f + 1
    else if Even f then f else f + 1
  (n : ℚ) / 1000

/-- The source entry built from one retrieved document
(rag/services.py lines 161-171 and 272-282). -/
def mkSource (d : RetrievedDoc) : SourceDocument :=
  ⟨d.document_id, d.title, d.department, d.chunk_index, d.doc_type, pyRound3 d.score⟩

/-- What `_cache_response` stores (rag/services.py lines 333-345): answer,
sources and confidence only; latency and the cached flag are excluded. -/
structure CachePayload where
  answer : String
  sources : List SourceDocument
  confidence : String
deriving DecidableEq

/-- The response object (rag/schemas.py QueryResponse; `latency_ms` is
wall-clock and not modelled). -/
structure QueryResponse where
  answer : String
  sources : List SourceDocument
  confidence : String
  cached : Bool
deriving DecidableEq

/-- The query request (rag/schemas.py QueryRequest). -/
structure QueryRequest where
  session_id : Option String
  query : String
  max_results : Nat
  confidence_threshold : ℚ
deriving DecidableEq

inductive ChatRole where
  | user
  | assistant
deriving DecidableEq

/-- A `query_logs` row as `_log_query` creates it (rag/services.py lines
348-377; `latency_ms` and `stage_timings` are wall-clock and not modelled). -/
structure QueryLogRec where
  query : String
  user_id : String
  department : String
  result_count : Nat
  cached : Bool
  confidence : String
  routed_to : String
deriving DecidableEq

/-- One observable side effect of an orchestrator run, in program order. -/
inductive Effect where
  | historyAppend (sessionId : String) (role : ChatRole) (content : String)
  | cacheSet (key : String) (value : CachePayload) (ttl : Nat)
  | logWrite (rec : QueryLogRec)
deriving DecidableEq

/-- The `_cache_response(cache, key, response, ttl)` call: strips the
response to answer/sources/confidence and stores it under `key`. -/
def cacheResponseEffect (key : String) (resp : QueryResponse) (ttl : Nat) : Effect :=
  .cacheSet key ⟨resp.answer, resp.sources, resp.confidence⟩ ttl

-- ──────────────────────────────────────────────────────────────────────────
-- LLM generation: core/llm.py, generate_answer_stream (lines 102-166)
-- ──────────────────────────────────────────────────────────────────────────

/-- How the LLM provider behaves on this call: it either streams `chunks`
and finishes, or raises after streaming `chunks`. -/
inductive GenOutcome where
  | ok (chunks : List String)
  | raiseAfter (chunks : List String)
deriving DecidableEq

/-- The text yielded by the `except` clause of `generate_answer_stream`
(llm.py line 166). -/
def generationErrorText : String := "I encountered an error generating the answer."

/-- `generate_answer_stream`: with no documents it yields one fixed message;
otherwise it yields the provider's chunks, and when the provider raises it
swallows the exception and yields `generationErrorText` as a final chunk —
it never raises itself.  (Prompt construction feeds the provider and is
subsumed in the provider outcome.) -/
def generateAnswerStream (docs : List RetrievedDoc) (g : GenOutcome) : List String :=
  if docs.isEmpty then
    ["I don't have enough information to answer this question."]
  else
    match g with
    | .ok cs => cs
    | .raiseAfter cs => cs ++ [generationErrorText]

-- ──────────────────────────────────────────────────────────────────────────
-- Semantic router: core/semantic_router.py (RoutedAgent, RouterResponse)
-- ──────────────────────────────────────────────────────────────────────────

inductive RoutedAgent where
  | rag
  | power_bi
  | gtm_api
  | erp_api
  | qms
  | document_search
  | unknown
deriving DecidableEq

/-- The `.value` string of each enum member. -/
def RoutedAgent.value : RoutedAgent → String
  | .rag => "rag"
  | .power_bi => "power_bi"
  | .gtm_api => "gtm_api"
  | .erp_api => "erp_api"
  | .qms => "qms"
  | .document_search => "document_search"
  | .unknown => "unknown"

/-- The router's decision as the orchestrators consume it.  The confidence
score appears in the user-facing message only through its `"{:.2f}"`
rendering, kept here as an opaque string (float formatting is not
modelled). -/
structure RouterDecision where
  routed_to : RoutedAgent
  confidenceStr : String
deriving DecidableEq

/-- The fixed non-RAG reply built at rag/services.py lines 73-77 and
242-246. -/
def copilotMsg (decision : RouterDecision) : String :=
  "This query requires the '" ++ decision.routed_to.value ++
    "' agent (Confidence: " ++ decision.confidenceStr ++
    "). This specialized Copilot integration is coming soon."

-- ──────────────────────────────────────────────────────────────────────────
-- Query orchestrators: rag/services.py, rag_query and rag_query_stream
-- ──────────────────────────────────────────────────────────────────────────

/-- The environment a single query runs against: the router's decision for
this query, the ranked vector-index matches for this query's embedding, the
cache contents, and the LLM provider's behaviour.  (Chat history reads feed
only the prompt, which the provider outcome subsumes.) -/
structure Env where
  decision : RouterDecision
  index : List ScoredVec
  cache : String → Option CachePayload
  gen : GenOutcome

/-- The user-turn history append both orchestrators perform when a session
id is present (rag/services.py lines 63-65 and 231-234). -/
def userHistoryEffects (req : QueryRequest) : List Effect :=
  match req.session_id with
  | some sid => [.historyAppend sid .user req.query]
  | none => []

/-- An assistant-turn history append guarded on the session id. -/
def assistantHistoryEffects (req : QueryRequest) (content : String) : List Effect :=
  match req.session_id with
  | some sid => [.historyAppend sid .assistant content]
  | none => []

/-- The negative-result answer of the blocking orchestrator
(rag/services.py lines 130-134). -/
def noInfoAnswer : String :=
  "I don't have enough information to answer this question accurately. " ++
  "This might be because:\n" ++
  "1. The information isn't available in my knowledge base\n" ++
  "2. Your query needs more specific details\n" ++
  "3. The information exists in a different department"

/-- The negative-result message of the streaming orchestrator
(rag/services.py line 287). -/
def streamNoInfoAnswer : String :=
  "I don't have enough information to answer this question accurately."

/-- TTL of a cached negative result (rag/services.py line 140). -/
def negativeTtl : Nat := 1800

/-- TTL of a cached positive result (rag/services.py line 188). -/
def positiveTtl : Nat := 3600

/-- A blocking run: the returned response and the side effects in program
order. -/
structure RunResult where
  response : QueryResponse
  effects : List Effect
deriving DecidableEq

/-- `rag_query` (rag/services.py lines 29-203).  Stages in source order:
optional history fetch and user-turn append; semantic routing with the
non-RAG short circuit (assistant append, then log, confidence "high");
department-scoped cache check returning the cached payload with
`cached=True` (and no further effect); department+is_active filtered
retrieval; the zero-result branch (fixed low-confidence answer, negative
cache write, assistant append, no log); otherwise collect the generation
stream into `answer`, build sources, append history, cache positively and
write one log row. -/
def ragQuery (env : Env) (req : QueryRequest) (userDepartment userId : String) :
    RunResult :=
  let hist := userHistoryEffects req
  if env.decision.routed_to ≠ RoutedAgent.rag then
    let msg := copilotMsg env.decision
    { response := ⟨msg, [], "high", false⟩
      effects := hist ++ assistantHistoryEffects req msg ++
        [.logWrite ⟨req.query, userId, userDepartment, 0, false, "high",
          env.decision.routed_to.value⟩] }
  else
    let key := cacheGetKey req.query userDepartment
    match env.cache key with
    | some payload =>
      { response := ⟨payload.answer, payload.sources, payload.confidence, true⟩
        effects := hist }
    | none =>
      let docs := vectorSearch env.index ⟨userDepartment, true⟩
        req.max_results req.confidence_threshold
      if docs.isEmpty then
        let resp : QueryResponse := ⟨noInfoAnswer, [], "low", false⟩
        { response := resp
          effects := hist ++ [cacheResponseEffect key resp negativeTtl] ++
            assistantHistoryEffects req noInfoAnswer }
      else
        let answer := String.join (generateAnswerStream docs env.gen)
        let sources := docs.map mkSource
        let resp : QueryResponse := ⟨answer, sources, "high", false⟩
        { response := resp
          effects := hist ++ assistantHistoryEffects req answer ++
            [cacheResponseEffect key resp positiveTtl,
             .logWrite ⟨req.query, userId, userDepartment, docs.length, false,
               "high", RoutedAgent.rag.value⟩] }

/-- One server-sent event of the streaming orchestrator. -/
inductive SSEEvent where
  | sources (payload : List SourceDocument)
  | message (content : String)
  | error
  | terminal
deriving DecidableEq

/-- How the generator iterated by `rag_query_stream` behaves: it either
yields `chunks` and completes, or yields `chunks` and then raises (the
`except` branch of the orchestrator). -/
inductive StreamGen where
  | completes (chunks : List String)
  | raises (chunks : List String)
deriving DecidableEq

/-- A streaming run: the yielded events and the side effects, each in
program order. -/
structure StreamResult where
  events : List SSEEvent
  effects : List Effect
deriving DecidableEq

/-- The body of `rag_query_stream` (rag/services.py lines 209-327) over an
arbitrary behaviour of the iterated generator.  In source order: optional
history fetch and user-turn append; the non-RAG short circuit (empty sources
event, one message, assistant append, log, terminal event); retrieval with
the department+is_active filter (note: no cache check); the sources event;
the empty-result branch (one message, assistant append, terminal, no log);
otherwise one message event per generation chunk, an error event if the
generator raised, and the `finally` block: assistant append of the non-empty
accumulated answer, one log row, then the terminal event.  The stream never
writes the result cache. -/
def ragQueryStreamGen (env : Env) (req : QueryRequest)
    (userDepartment userId : String) (gen : StreamGen) : StreamResult :=
  let hist := userHistoryEffects req
  if env.decision.routed_to ≠ RoutedAgent.rag then
    let msg := copilotMsg env.decision
    { events := [.sources [], .message msg, .terminal]
      effects := hist ++ assistantHistoryEffects req msg ++
        [.logWrite ⟨req.query, userId, userDepartment, 0, false, "high",
          env.decision.routed_to.value⟩] }
  else
    let docs := vectorSearch env.index ⟨userDepartment, true⟩
      req.max_results req.confidence_threshold
    let sources := docs.map mkSource
    if docs.isEmpty then
      { events := [.sources sources, .message streamNoInfoAnswer, .terminal]
        effects := hist ++ assistantHistoryEffects req streamNoInfoAnswer }
    else
      let chunks := match gen with | .completes cs => cs | .raises cs => cs
      let errored := match gen with | .completes _ => false | .raises _ => true
      let fullAnswer := String.join chunks
      { events := [.sources sources] ++ chunks.map .message ++
          (if errored then [.error] else []) ++ [.terminal]
        effects := hist ++
          (match req.session_id with
           | some sid =>
             if fullAnswer ≠ "" then [.historyAppend sid .assistant fullAnswer]
             else []
           | none => []) ++
          [.logWrite ⟨req.query, userId, userDepartment, docs.length, false,
            "high", RoutedAgent.rag.value⟩] }

/-- `rag_query_stream` itself: the iterated generator is
`generate_answer_stream`, which never raises (llm.py catches provider
errors), so the generator completes with its chunk list. -/
def ragQueryStream (env : Env) (req : QueryRequest)
    (userDepartment userId : String) : StreamResult :=
  ragQueryStreamGen env req userDepartment userId
    (.completes (generateAnswerStream
      (vectorSearch env.index ⟨userDepartment, true⟩
        req.max_results req.confidence_threshold)
      env.gen))

-- ──────────────────────────────────────────────────────────────────────────
-- Observation helpers
-- ──────────────────────────────────────────────────────────────────────────

/-- The cache writes of a run, in order: (key, payload, ttl). -/
def cacheWritesOf (effects : List Effect) : List (String × CachePayload × Nat) :=
  effects.filterMap (fun e =>
    match e with
    | .cacheSet k v t => some (k, v, t)
    | _ => none)

/-- The query-log rows of a run, in order. -/
def logsOf (effects : List Effect) : List QueryLogRec :=
  effects.filterMap (fun e =>
    match e with
    | .logWrite r => some r
    | _ => none)

/-- The final answer text a streaming client assembles: the concatenation of
the message events. -/
def streamAnswer (r : StreamResult) : String :=
  String.join (r.events.filterMap (fun e =>
    match e with
    | .message c => some c
    | _ => none))

/-- Replaying a run's cache writes onto a cache state (`CacheManager.set`). -/
def applyCacheWrites (cache : String → Option CachePayload)
    (effects : List Effect) : String → Option CachePayload :=
  effects.foldl (fun c e =>
    match e with
    | .cacheSet k v _ => fun k2 => if k2 = k then some v else c k2
    | _ => c) cache

-- ──────────────────────────────────────────────────────────────────────────
-- C5: chunker configuration guard and termination
-- ──────────────────────────────────────────────────────────────────────────

/-- C5 (counterexample): `_chunk_text` contains no `overlap < chunk_size`
guard.  At `chunk_size = 1, overlap = 1` on the two-word text "a b" the loop
step `chunk_size - overlap` is zero, so the loop index never advances: the
call does not raise a configuration error, it fails to terminate (`none`
for every fuel, by `chunkGo_no_progress`). -/
theorem C5_no_guard_counterexample :
    chunkText "a b" 1 1 = none ∧ chunkGo ["a", "b"] 1 1 1000 0 = none := by
  constructor
  · rfl
  · exact chunkGo_no_progress ["a", "b"] 1 1 (Nat.le_refl 1) (by decide) 1000

/-- C5 (amended): there is no configuration-error check, but for every input
text and every configuration with `overlap < chunk_size` the chunking loop
terminates (the fuelled loop returns a value). -/
theorem C5_chunker_terminates (text : String) (chunkSize overlap : Nat)
    (h : overlap < chunkSize) :
    (chunkText text chunkSize overlap).isSome := by
  unfold chunkText
  by_cases he : (pySplit text).isEmpty
  · simp [he]
  · have := chunkGo_isSome (pySplit text) chunkSize overlap h
      ((pySplit text).length + 1) 0 (by omega)
    simp only [he, if_false, Option.isSome_map]
    simpa using this

/-- C5 witness: the termination theorem applied at the call-site
configuration `chunk_size=500, overlap=50` on a concrete text. -/
theorem C5_chunker_terminates_witness :
    50 < 500 ∧ (chunkText "hello world example" 500 50).isSome :=
  ⟨by decide, C5_chunker_terminates "hello world example" 500 50 (by decide)⟩

-- ──────────────────────────────────────────────────────────────────────────
-- C6: chunker round trip and empty input
-- ──────────────────────────────────────────────────────────────────────────

/-- C6: with `overlap < chunk_size`, an empty or whitespace-only input (empty
word list) yields zero chunks and no error, and in general the chunk loop
succeeds on the word sequence of the text, `_chunk_text` returns exactly
those word chunks joined with single spaces, and rejoining the word chunks
with the first `overlap` words of every later chunk removed reconstructs the
text's word sequence exactly. -/
theorem C6_chunk_round_trip (text : String) (chunkSize overlap : Nat)
    (h : overlap < chunkSize) :
    (pySplit text = [] → chunkText text chunkSize overlap = some [])
    ∧ ∃ wcls,
        chunkGo (pySplit text) chunkSize overlap ((pySplit text).length + 1) 0
          = some wcls
        ∧ chunkText text chunkSize overlap
          = some (wcls.map (String.intercalate " "))
        ∧ reassembleWords overlap wcls = pySplit text := by
  constructor
  · intro he
    unfold chunkText
    simp [he]
  · have hsome := chunkGo_isSome (pySplit text) chunkSize overlap h
      ((pySplit text).length + 1) 0 (by omega)
    obtain ⟨wcls, hwcls⟩ := Option.isSome_iff_exists.mp hsome
    refine ⟨wcls, hwcls, ?_, chunkGo_reassemble (pySplit text) chunkSize overlap h _ wcls hwcls⟩
    unfold chunkText
    by_cases he : (pySplit text).isEmpty
    · have hnil : pySplit text = [] := List.isEmpty_iff.mp he
      rw [hnil] at hwcls
      have : wcls = [] := by
        have h1 : chunkGo ([] : List String) chunkSize overlap 1 0 = some [] := by
          simp [chunkGo]
        simp only [List.length_nil, Nat.zero_add, h1, Option.some.injEq] at hwcls
        exact hwcls.symm
      simp [he, this]
    · simp [he, hwcls]

/-- C6 witness: the round trip at the concrete text "a b c" with chunk size
2 and overlap 1 (chunks "a b", "b c", "c"). -/
theorem C6_chunk_round_trip_witness :
    (pySplit "a b c" = [] → chunkText "a b c" 2 1 = some [])
    ∧ ∃ wcls,
        chunkGo (pySplit "a b c") 2 1 ((pySplit "a b c").length + 1) 0 = some wcls
        ∧ chunkText "a b c" 2 1 = some (wcls.map (String.intercalate " "))
        ∧ reassembleWords 1 wcls = pySplit "a b c" :=
  C6_chunk_round_trip "a b c" 2 1 (by decide)

-- ──────────────────────────────────────────────────────────────────────────
-- C7: vector id derivation
-- ──────────────────────────────────────────────────────────────────────────

/-- The prefix of a list before its first underscore is the whole prefix
when that prefix is underscore-free. -/
lemma takeWhile_until_underscore (l rest : List Char) (h : '_' ∉ l) :
    (l ++ '_' :: rest).takeWhile (fun c => c != '_') = l := by
  induction l with
  | nil => simp [List.takeWhile_cons]
  | cons a tl ih =>
    have ha : a ≠ '_' := fun e => h (by simp [e])
    have htl : '_' ∉ tl := fun e => h (List.mem_cons_of_mem a e)
    simp [List.takeWhile_cons, ha, ih htl]

/-- Two documents with distinct underscore-free ids (UUID strings contain no
underscore) never collide on a chunk vector id: the document id is the part
of the vector id before its first underscore. -/
lemma vectorId_ne_of_ne (a b : String) (i j : Nat)
    (ha : '_' ∉ a.data) (hb : '_' ∉ b.data) (hab : a ≠ b) :
    vectorId a i ≠ vectorId b j := by
  intro he
  apply hab
  have hd : (vectorId a i).data = (vectorId b j).data := congrArg String.data he
  simp only [vectorId, String.data_append] at hd
  have h1 : a.data ++ '_' :: (['c', 'h', 'u', 'n', 'k', '_'] ++ (toString i).data)
      = b.data ++ '_' :: (['c', 'h', 'u', 'n', 'k', '_'] ++ (toString j).data) := by
    simpa [List.append_assoc] using hd
  have h2 := congrArg (List.takeWhile (fun c => c != '_')) h1
  rw [takeWhile_until_underscore a.data _ ha,
    takeWhile_until_underscore b.data _ hb] at h2
  exact String.ext h2

/-- The value a successful `ingest_document` returns, spelled out. -/
lemma ingestDocument_ok_eq (docs : List Doc) (data : DocumentCreate)
    (userDepartment newId : String) (r : IngestResult)
    (hOk : ingestDocument docs data userDepartment newId = .ok r) :
    r =
      ⟨(if getNextVersion docs data.title data.department > 1 then
          deactivateOldVersions
            (docs ++ [⟨newId, data.title, data.department, data.docType,
              getNextVersion docs data.title data.department, true⟩])
            data.title data.department newId
        else
          docs ++ [⟨newId, data.title, data.department, data.docType,
            getNextVersion docs data.title data.department, true⟩]),
       getNextVersion docs data.title data.department,
       ((List.range ((chunkText data.content 500 50).getD []).length).zip
          ((chunkText data.content 500 50).getD [])).map (fun p =>
         ⟨vectorId newId p.1,
          ⟨p.2, newId, data.department, p.1, data.title, data.docType,
           getNextVersion docs data.title data.department, true⟩⟩),
       ((chunkText data.content 500 50).getD []).length⟩ := by
  unfold ingestDocument at hOk
  split at hOk
  · exact absurd hOk (by simp)
  · split at hOk
    · exact absurd hOk (by simp)
    · simpa using hOk.symm

/-- C7 (amended): ingestion assigns every chunk the vector id
`{document_id}_chunk_{index}` (underscores, not `:chunk:`), and for
underscore-free document ids (UUID strings) distinct documents can never
collide on a vector id. -/
theorem C7_vector_id (docs : List Doc) (data : DocumentCreate)
    (userDepartment newId : String) (r : IngestResult)
    (hOk : ingestDocument docs data userDepartment newId = .ok r) :
    (∀ u ∈ r.upserts, u.id = vectorId newId u.meta.chunk_index)
    ∧ ∀ (a b : String) (i j : Nat),
        '_' ∉ a.data → '_' ∉ b.data → a ≠ b → vectorId a i ≠ vectorId b j := by
  refine ⟨?_, fun a b i j ha hb hab => vectorId_ne_of_ne a b i j ha hb hab⟩
  intro u hu
  have he := ingestDocument_ok_eq docs data userDepartment newId r hOk
  rw [he] at hu
  simp only [List.mem_map] at hu
  obtain ⟨p, hp, rfl⟩ := hu
  rfl

/-- C7 (counterexample): a concrete ingestion of a one-chunk document with
document id "d" upserts the vector id "d_chunk_0", which is not the id
`"d:chunk:0"` that the claim's derivation rule would produce. -/
theorem C7_vector_id_counterexample :
    (match ingestDocument [] ⟨"T", "HR", "policy", "hello world"⟩ "HR" "d" with
     | .ok r => r.upserts.map VecUpsert.id
     | .error _ => []) = ["d_chunk_0"]
    ∧ vectorId "d" 0 ≠ "d:chunk:0" := by
  constructor
  · rfl
  · decide

/-- C7 witness: the amended theorem applied to that concrete ingestion. -/
theorem C7_vector_id_witness :
    (∀ u ∈ (IngestResult.mk [⟨"d", "T", "HR", "policy", 1, true⟩] 1
        [⟨"d_chunk_0", ⟨"hello world", "d", "HR", 0, "T", "policy", 1, true⟩⟩]
        1).upserts, u.id = vectorId "d" u.meta.chunk_index)
    ∧ ∀ (a b : String) (i j : Nat),
        '_' ∉ a.data → '_' ∉ b.data → a ≠ b → vectorId a i ≠ vectorId b j :=
  C7_vector_id [] ⟨"T", "HR", "policy", "hello world"⟩ "HR" "d" _ rfl

-- ──────────────────────────────────────────────────────────────────────────
-- C4: version monotonicity and the single-active invariant
-- ──────────────────────────────────────────────────────────────────────────

/-- Every element of a list of naturals is bounded by `foldr max 0`. -/
lemma le_foldr_max (l : List Nat) (x : Nat) (hx : x ∈ l) : x ≤ l.foldr max 0 := by
  induction l with
  | nil => cases hx
  | cons a tl ih =>
    rcases List.mem_cons.mp hx with h | h
    · subst h
      exact Nat.le_max_left _ _
    · exact le_trans (ih h) (Nat.le_max_right _ _)

/-- The assigned version strictly dominates every existing version of the
(title, department) pair. -/
lemma getNextVersion_gt (docs : List Doc) (title department : String)
    (d : Doc) (hd : d ∈ docs) (ht : d.title = title)
    (hdep : d.department = department) :
    d.version < getNextVersion docs title department := by
  have hmem : d ∈ docs.filter
      (fun d => d.title == title && d.department == department) := by
    simp [List.mem_filter, hd, ht, hdep]
  have : d.version ∈ (docs.filter
      (fun d => d.title == title && d.department == department)).map Doc.version :=
    List.mem_map_of_mem Doc.version hmem
  have := le_foldr_max _ _ this
  unfold getNextVersion
  omega

/-- With no existing document of the pair, the assigned version is 1. -/
lemma getNextVersion_eq_one (docs : List Doc) (title department : String)
    (h : docs.filter (fun d => d.title == title && d.department == department) = []) :
    getNextVersion docs title department = 1 := by
  unfold getNextVersion
  rw [h]
  rfl


/-- The deactivation map can only turn `isActive` off and touches no other
field.  With `olds` covering the id of every pair-active document of the
list, the documents that are still pair-active after the map are exactly the
pair-active ones whose id is the current document's id (they are left
unchanged). -/
lemma deactivate_core (olds : List String) (currentId title department : String) :
    ∀ l : List Doc,
      (∀ d ∈ l, pairActive title department d = true → olds.contains d.id = true) →
      (l.map (fun d =>
        if olds.contains d.id && d.id != currentId then
          { d with isActive := false }
        else d)).filter (pairActive title department)
      = (l.filter (pairActive title department)).filter (fun d => d.id == currentId) := by
  intro l
  induction l with
  | nil => intro _; rfl
  | cons a tl ih =>
    intro hcov
    have htl : ∀ d ∈ tl, pairActive title department d = true →
        olds.contains d.id = true :=
      fun d hd hp => hcov d (List.mem_cons_of_mem a hd) hp
    have hrec := ih htl
    simp only [List.map_cons, List.filter_cons]
    by_cases hcond : (olds.contains a.id && a.id != currentId) = true
    · have hidne : a.id ≠ currentId := by
        have := (Bool.and_eq_true _ _).mp hcond
        simpa using this.2
      rw [if_pos hcond]
      have hfa : pairActive title department { a with isActive := false } = false := by
        simp [pairActive]
      rw [hfa]
      simp only [Bool.false_eq_true, if_false]
      by_cases hp : pairActive title department a = true
      · rw [if_pos hp, List.filter_cons, if_neg (by simp [hidne])]
        exact hrec
      · rw [if_neg hp]
        exact hrec
    · have hcond2 : (olds.contains a.id && a.id != currentId) = false :=
        Bool.not_eq_true _ |>.mp hcond
      rw [if_neg hcond]
      by_cases hp : pairActive title department a = true
      · have hin : olds.contains a.id = true := hcov a (List.mem_cons_self a tl) hp
        have hide : a.id = currentId := by
          rcases Bool.eq_false_or_eq_true (a.id != currentId) with hb | hb
          · rw [hin, hb] at hcond2
            simp at hcond2
          · simpa using hb
        rw [if_pos hp, if_pos hp, List.filter_cons, if_pos (by simp [hide])]
        exact congrArg (a :: ·) hrec
      · rw [if_neg hp, if_neg hp]
        exact hrec

/-- C4: every completed ingestion assigns a version strictly greater than
every existing version of the (title, department) pair, the first ingestion
of a pair assigns version 1, and after the ingestion exactly one document of
the pair is active: the newly created one.  Hypotheses: the generated UUID
is fresh, stored versions are at least 1 (every row is created by this very
procedure), and the pair has at most 99 active rows (the supersession query
fetches at most 100 rows; under the claimed invariant there is at most 1). -/
theorem C4_version_supersession (docs : List Doc) (data : DocumentCreate)
    (userDepartment newId : String) (r : IngestResult)
    (hFresh : ∀ d ∈ docs, d.id ≠ newId)
    (hVer : ∀ d ∈ docs, 1 ≤ d.version)
    (hPre : (docs.filter (pairActive data.title data.department)).length ≤ 99)
    (hOk : ingestDocument docs data userDepartment newId = .ok r) :
    (∀ d ∈ docs, d.title = data.title → d.department = data.department →
      d.version < r.version)
    ∧ ((docs.filter (fun d =>
          d.title == data.title && d.department == data.department)) = []
        → r.version = 1)
    ∧ r.store.filter (pairActive data.title data.department)
        = [⟨newId, data.title, data.department, data.docType, r.version, true⟩] := by
  have he := ingestDocument_ok_eq docs data userDepartment newId r hOk
  have hv2 : r.version = getNextVersion docs data.title data.department := by
    rw [he]
  refine ⟨?_, ?_, ?_⟩
  · intro d hd ht hdep
    rw [hv2]
    exact getNextVersion_gt docs data.title data.department d hd ht hdep
  · intro hnone
    rw [hv2]
    exact getNextVersion_eq_one docs data.title data.department hnone
  · have hstore : r.store =
        (if getNextVersion docs data.title data.department > 1 then
          deactivateOldVersions
            (docs ++ [⟨newId, data.title, data.department, data.docType,
              getNextVersion docs data.title data.department, true⟩])
            data.title data.department newId
        else
          docs ++ [⟨newId, data.title, data.department, data.docType,
            getNextVersion docs data.title data.department, true⟩]) := by
      rw [he]
    rw [hstore, hv2]
    set v := getNextVersion docs data.title data.department with hv
    set newDoc : Doc :=
      ⟨newId, data.title, data.department, data.docType, v, true⟩ with hnd
    have hnewActive : pairActive data.title data.department newDoc = true := by
      simp [pairActive, hnd]
    by_cases h1 : v > 1
    · -- supersession path
      rw [if_pos h1]
      set docs1 : List Doc := docs ++ [newDoc] with hd1
      have hfilter1 : docs1.filter (pairActive data.title data.department)
          = docs.filter (pairActive data.title data.department) ++ [newDoc] := by
        rw [hd1, List.filter_append]
        simp [hnewActive]
      have hlen : (docs1.filter (pairActive data.title data.department)).length ≤ 100 := by
        rw [hfilter1]
        simp only [List.length_append, List.length_cons, List.length_nil]
        omega
      unfold deactivateOldVersions
      rw [List.take_of_length_le hlen]
      have hcov : ∀ d ∈ docs1, pairActive data.title data.department d = true →
          ((docs1.filter (pairActive data.title data.department)).map Doc.id).contains d.id
            = true := by
        intro d hd hp
        have : d ∈ docs1.filter (pairActive data.title data.department) :=
          List.mem_filter.mpr ⟨hd, hp⟩
        have := List.mem_map_of_mem Doc.id this
        simpa using this
      rw [deactivate_core _ newId data.title data.department docs1 hcov]
      rw [hfilter1, List.filter_append]
      have hleft : (docs.filter (pairActive data.title data.department)).filter
          (fun d => d.id == newId) = [] := by
        rw [List.filter_eq_nil_iff]
        intro d hd
        have : d ∈ docs := List.mem_of_mem_filter hd
        simp [hFresh d this]
      rw [hleft]
      simp [hnd]
    · -- first version: the pair had no document at all
      rw [if_neg h1]
      have hvone : v = 1 := by
        have : 1 ≤ v := by
          rw [hv]
          unfold getNextVersion
          omega
        omega
      have hnone : docs.filter (pairActive data.title data.department) = [] := by
        rw [List.filter_eq_nil_iff]
        intro d hd hp
        have hmem : d ∈ docs.filter (fun d =>
            d.title == data.title && d.department == data.department) := by
          simp only [pairActive, Bool.and_eq_true, beq_iff_eq] at hp
          simp [List.mem_filter, hd, hp.1.1, hp.1.2]
        have hle : d.version ≤ ((docs.filter (fun d =>
            d.title == data.title && d.department == data.department)).map
              Doc.version).foldr max 0 :=
          le_foldr_max _ _ (List.mem_map_of_mem Doc.version hmem)
        have hone := hVer d hd
        have : v = ((docs.filter (fun d =>
            d.title == data.title && d.department == data.department)).map
              Doc.version).foldr max 0 + 1 := hv
        omega
      rw [List.filter_append, hnone]
      simp [hnewActive]

/-- C4 witness: a second ingestion of the pair ("T", "HR") on a store
holding active version 1 assigns version 2 and leaves exactly the new row
active. -/
theorem C4_version_supersession_witness :
    (∀ d ∈ [Doc.mk "a" "T" "HR" "policy" 1 true], d.title = "T" →
      d.department = "HR" →
      d.version < (IngestResult.mk
        [⟨"a", "T", "HR", "policy", 1, false⟩, ⟨"b", "T", "HR", "policy", 2, true⟩]
        2 [⟨"b_chunk_0", ⟨"hello world", "b", "HR", 0, "T", "policy", 2, true⟩⟩]
        1).version)
    ∧ (([Doc.mk "a" "T" "HR" "policy" 1 true].filter (fun d =>
          d.title == "T" && d.department == "HR")) = []
        → (IngestResult.mk
            [⟨"a", "T", "HR", "policy", 1, false⟩,
             ⟨"b", "T", "HR", "policy", 2, true⟩]
            2 [⟨"b_chunk_0", ⟨"hello world", "b", "HR", 0, "T", "policy", 2, true⟩⟩]
            1).version = 1)
    ∧ (IngestResult.mk
        [⟨"a", "T", "HR", "policy", 1, false⟩, ⟨"b", "T", "HR", "policy", 2, true⟩]
        2 [⟨"b_chunk_0", ⟨"hello world", "b", "HR", 0, "T", "policy", 2, true⟩⟩]
        1).store.filter (pairActive "T" "HR")
      = [⟨"b", "T", "HR", "policy",
          (IngestResult.mk
            [⟨"a", "T", "HR", "policy", 1, false⟩,
             ⟨"b", "T", "HR", "policy", 2, true⟩]
            2 [⟨"b_chunk_0", ⟨"hello world", "b", "HR", 0, "T", "policy", 2, true⟩⟩]
            1).version, true⟩] :=
  C4_version_supersession [⟨"a", "T", "HR", "policy", 1, true⟩]
    ⟨"T", "HR", "policy", "hello world"⟩ "HR" "b" _
    (by decide) (by decide) (by decide) rfl

-- ──────────────────────────────────────────────────────────────────────────
-- Branch equations for the two orchestrators
-- ──────────────────────────────────────────────────────────────────────────

/-- `rag_query`, non-RAG routing branch. -/
lemma ragQuery_not_rag (env : Env) (req : QueryRequest) (dept uid : String)
    (h : env.decision.routed_to ≠ RoutedAgent.rag) :
    ragQuery env req dept uid =
      { response := ⟨copilotMsg env.decision, [], "high", false⟩
        effects := userHistoryEffects req ++
          assistantHistoryEffects req (copilotMsg env.decision) ++
          [.logWrite ⟨req.query, uid, dept, 0, false, "high",
            env.decision.routed_to.value⟩] } := by
  simp only [ragQuery]
  rw [if_pos h]

/-- `rag_query`, cache-hit branch: the cached payload is returned with
`cached = true` and the only effect is the optional user-turn history
append — no log row is written. -/
lemma ragQuery_cache_hit (env : Env) (req : QueryRequest) (dept uid : String)
    (p : CachePayload)
    (hroute : env.decision.routed_to = RoutedAgent.rag)
    (hc : env.cache (cacheGetKey req.query dept) = some p) :
    ragQuery env req dept uid =
      { response := ⟨p.answer, p.sources, p.confidence, true⟩
        effects := userHistoryEffects req } := by
  simp only [ragQuery]
  rw [if_neg (by simp [hroute]), hc]

/-- `rag_query`, zero-result branch: fixed low-confidence answer, negative
cache write, assistant history append, and no log row. -/
lemma ragQuery_no_docs (env : Env) (req : QueryRequest) (dept uid : String)
    (hroute : env.decision.routed_to = RoutedAgent.rag)
    (hmiss : env.cache (cacheGetKey req.query dept) = none)
    (hdocs : vectorSearch env.index ⟨dept, true⟩ req.max_results
      req.confidence_threshold = []) :
    ragQuery env req dept uid =
      { response := ⟨noInfoAnswer, [], "low", false⟩
        effects := userHistoryEffects req ++
          [cacheResponseEffect (cacheGetKey req.query dept)
            ⟨noInfoAnswer, [], "low", false⟩ negativeTtl] ++
          assistantHistoryEffects req noInfoAnswer } := by
  simp only [ragQuery]
  rw [if_neg (by simp [hroute]), hmiss, hdocs]
  rfl

/-- `rag_query`, positive branch: collected stream answer, sources from the
retrieval, assistant history append, positive cache write and one log row. -/
lemma ragQuery_docs (env : Env) (req : QueryRequest) (dept uid : String)
    (hroute : env.decision.routed_to = RoutedAgent.rag)
    (hmiss : env.cache (cacheGetKey req.query dept) = none)
    (hdocs : vectorSearch env.index ⟨dept, true⟩ req.max_results
      req.confidence_threshold ≠ []) :
    ragQuery env req dept uid =
      { response := ⟨String.join (generateAnswerStream
          (vectorSearch env.index ⟨dept, true⟩ req.max_results
            req.confidence_threshold) env.gen),
          (vectorSearch env.index ⟨dept, true⟩ req.max_results
            req.confidence_threshold).map mkSource, "high", false⟩
        effects := userHistoryEffects req ++
          assistantHistoryEffects req (String.join (generateAnswerStream
            (vectorSearch env.index ⟨dept, true⟩ req.max_results
              req.confidence_threshold) env.gen)) ++
          [cacheResponseEffect (cacheGetKey req.query dept)
            ⟨String.join (generateAnswerStream
              (vectorSearch env.index ⟨dept, true⟩ req.max_results
                req.confidence_threshold) env.gen),
             (vectorSearch env.index ⟨dept, true⟩ req.max_results
               req.confidence_threshold).map mkSource, "high", false⟩
            positiveTtl,
           .logWrite ⟨req.query, uid, dept,
             (vectorSearch env.index ⟨dept, true⟩ req.max_results
               req.confidence_threshold).length, false, "high",
             RoutedAgent.rag.value⟩] } := by
  have he : (vectorSearch env.index ⟨dept, true⟩ req.max_results
      req.confidence_threshold).isEmpty = false := by
    simpa using hdocs
  simp only [ragQuery]
  rw [if_neg (by simp [hroute]), hmiss, he]
  rfl

/-- `rag_query_stream`, non-RAG routing branch. -/
lemma ragQueryStreamGen_not_rag (env : Env) (req : QueryRequest)
    (dept uid : String) (gen : StreamGen)
    (h : env.decision.routed_to ≠ RoutedAgent.rag) :
    ragQueryStreamGen env req dept uid gen =
      { events := [.sources [], .message (copilotMsg env.decision), .terminal]
        effects := userHistoryEffects req ++
          assistantHistoryEffects req (copilotMsg env.decision) ++
          [.logWrite ⟨req.query, uid, dept, 0, false, "high",
            env.decision.routed_to.value⟩] } := by
  simp only [ragQueryStreamGen]
  rw [if_pos h]

/-- `rag_query_stream`, zero-result branch: empty sources event, one fixed
message, assistant history append, terminal event and no log row. -/
lemma ragQueryStreamGen_no_docs (env : Env) (req : QueryRequest)
    (dept uid : String) (gen : StreamGen)
    (hroute : env.decision.routed_to = RoutedAgent.rag)
    (hdocs : vectorSearch env.index ⟨dept, true⟩ req.max_results
      req.confidence_threshold = []) :
    ragQueryStreamGen env req dept uid gen =
      { events := [.sources [], .message streamNoInfoAnswer, .terminal]
        effects := userHistoryEffects req ++
          assistantHistoryEffects req streamNoInfoAnswer } := by
  simp only [ragQueryStreamGen]
  rw [if_neg (by simp [hroute]), hdocs]
  rfl

/-- `rag_query_stream`, generation branch: sources event first, one message
per chunk, an error event when the generator raised, then the `finally`
effects (conditional assistant append of the accumulated answer, one log
row) and the terminal event. -/
lemma ragQueryStreamGen_docs (env : Env) (req : QueryRequest)
    (dept uid : String) (gen : StreamGen)
    (hroute : env.decision.routed_to = RoutedAgent.rag)
    (hdocs : vectorSearch env.index ⟨dept, true⟩ req.max_results
      req.confidence_threshold ≠ []) :
    ragQueryStreamGen env req dept uid gen =
      { events := [.sources ((vectorSearch env.index ⟨dept, true⟩
            req.max_results req.confidence_threshold).map mkSource)] ++
          (match gen with | .completes cs => cs | .raises cs => cs).map .message ++
          (if (match gen with | .completes _ => false | .raises _ => true)
            then [.error] else []) ++ [.terminal]
        effects := userHistoryEffects req ++
          (match req.session_id with
           | some sid =>
             if String.join (match gen with
                | .completes cs => cs | .raises cs => cs) ≠ "" then
               [.historyAppend sid .assistant (String.join (match gen with
                 | .completes cs => cs | .raises cs => cs))]
             else []
           | none => []) ++
          [.logWrite ⟨req.query, uid, dept,
            (vectorSearch env.index ⟨dept, true⟩ req.max_results
              req.confidence_threshold).length, false, "high",
            RoutedAgent.rag.value⟩] } := by
  have he : (vectorSearch env.index ⟨dept, true⟩ req.max_results
      req.confidence_threshold).isEmpty = false := by
    simpa using hdocs
  simp only [ragQueryStreamGen]
  rw [if_neg (by simp [hroute]), he]
  rfl

-- ──────────────────────────────────────────────────────────────────────────
-- Concrete fixtures for witnesses and counterexamples
-- ──────────────────────────────────────────────────────────────────────────

/-- A plain request: no session, query "q", default bounds. -/
def reqPlain : QueryRequest := ⟨none, "q", 5, 0⟩

/-- One active HR chunk vector. -/
def metaHR : VecMeta := ⟨"chunk text", "doc-1", "HR", 0, "Title", "policy", 1, true⟩

/-- RAG-routed run over a one-vector HR index, empty cache, generation
succeeding with one chunk. -/
def envHR : Env :=
  ⟨⟨.rag, "1.00"⟩, [⟨"doc-1_chunk_0", metaHR, 1⟩], fun _ => none, .ok ["Hello"]⟩

/-- RAG-routed run over an empty index and empty cache. -/
def envEmptyIndex : Env := ⟨⟨.rag, "1.00"⟩, [], fun _ => none, .ok []⟩

/-- RAG-routed run finding a cached payload for ("q", "HR"). -/
def envCacheHit : Env :=
  ⟨⟨.rag, "1.00"⟩, [],
    fun k => if k = cacheGetKey "q" "HR" then some ⟨"cached answer", [], "high"⟩
      else none,
    .ok []⟩

/-- RAG-routed run where the LLM provider raises immediately. -/
def envGenFail : Env :=
  ⟨⟨.rag, "1.00"⟩, [⟨"doc-1_chunk_0", metaHR, 1⟩], fun _ => none, .raiseAfter []⟩

-- ──────────────────────────────────────────────────────────────────────────
-- C1: department isolation on retrieval
-- ──────────────────────────────────────────────────────────────────────────

/-- Every match passing the retrieval filter carries the filter's department
and active flag. -/
lemma filter_matches_props (index : List ScoredVec) (f : SearchFilter) :
    ∀ e ∈ index.filter (fun v => matchesFilter f v.meta),
      e.meta.department = f.department ∧ e.meta.is_active = f.is_active := by
  intro e he
  have h3 := (List.mem_filter.mp he).2
  simp only [matchesFilter, Bool.and_eq_true, beq_iff_eq] at h3
  exact h3

/-- Every document returned by the filtered search carries the filter's
department. -/
lemma vectorSearch_department (index : List ScoredVec) (f : SearchFilter)
    (limit : Nat) (thr : ℚ) :
    ∀ d ∈ vectorSearch index f limit thr, d.department = f.department := by
  intro d hd
  simp only [vectorSearch, List.mem_map] at hd
  obtain ⟨e, he, rfl⟩ := hd
  have h1 := (List.mem_filter.mp he).1
  have h2 := List.mem_of_mem_take h1
  exact (filter_matches_props index f e h2).1

/-- C1: both orchestrators retrieve with the metadata filter
`{"department": A, "is_active": True}`: every match passing the filter is an
active vector of department A, every retrieved document carries department
A, every source of a blocking response carries department A (for the
cache-hit path under the invariant that A's cache holds only A-sourced
payloads, which the orchestrator's own writes maintain), and every sources
event of a streaming run carries department A — so for any B ≠ A no source
of department B is ever returned. -/
theorem C1_department_isolation (env : Env) (req : QueryRequest)
    (A B uid : String) (hAB : A ≠ B)
    (hcache : ∀ p, env.cache (cacheGetKey req.query A) = some p →
      ∀ s ∈ p.sources, s.department = A) :
    (∀ e ∈ env.index.filter (fun v => matchesFilter ⟨A, true⟩ v.meta),
      e.meta.department = A ∧ e.meta.is_active = true)
    ∧ (∀ d ∈ vectorSearch env.index ⟨A, true⟩ req.max_results
        req.confidence_threshold, d.department = A)
    ∧ (∀ s ∈ (ragQuery env req A uid).response.sources,
        s.department = A ∧ s.department ≠ B)
    ∧ (∀ srcs, SSEEvent.sources srcs ∈ (ragQueryStream env req A uid).events →
        ∀ s ∈ srcs, s.department = A ∧ s.department ≠ B) := by
  have hsearch := vectorSearch_department env.index ⟨A, true⟩
    req.max_results req.confidence_threshold
  refine ⟨filter_matches_props env.index ⟨A, true⟩, hsearch, ?_, ?_⟩
  · intro s hs
    by_cases hroute : env.decision.routed_to = RoutedAgent.rag
    · cases hc : env.cache (cacheGetKey req.query A) with
      | some p =>
        rw [ragQuery_cache_hit env req A uid p hroute hc] at hs
        have hA := hcache p hc s hs
        exact ⟨hA, hA ▸ hAB⟩
      | none =>
        by_cases hdocs : vectorSearch env.index ⟨A, true⟩ req.max_results
            req.confidence_threshold = []
        · rw [ragQuery_no_docs env req A uid hroute hc hdocs] at hs
          simp at hs
        · rw [ragQuery_docs env req A uid hroute hc hdocs] at hs
          simp only [List.mem_map] at hs
          obtain ⟨d, hd, rfl⟩ := hs
          have hA : (mkSource d).department = A := hsearch d hd
          exact ⟨hA, hA ▸ hAB⟩
    · rw [ragQuery_not_rag env req A uid hroute] at hs
      simp at hs
  · intro srcs hmem s hs
    unfold ragQueryStream at hmem
    by_cases hroute : env.decision.routed_to = RoutedAgent.rag
    · by_cases hdocs : vectorSearch env.index ⟨A, true⟩ req.max_results
          req.confidence_threshold = []
      · rw [ragQueryStreamGen_no_docs env req A uid _ hroute hdocs] at hmem
        simp at hmem
        subst hmem
        simp at hs
      · rw [ragQueryStreamGen_docs env req A uid _ hroute hdocs] at hmem
        simp at hmem
        subst hmem
        simp only [List.mem_map] at hs
        obtain ⟨d, hd, rfl⟩ := hs
        have hA : (mkSource d).department = A := hsearch d hd
        exact ⟨hA, hA ▸ hAB⟩
    · rw [ragQueryStreamGen_not_rag env req A uid _ hroute] at hmem
      simp at hmem
      subst hmem
      simp at hs

/-- C1 witness: the theorem at a concrete RAG-routed environment with
departments "HR" against "Sales". -/
theorem C1_department_isolation_witness :
    (∀ e ∈ envEmptyIndex.index.filter
        (fun v => matchesFilter ⟨"HR", true⟩ v.meta),
      e.meta.department = "HR" ∧ e.meta.is_active = true)
    ∧ (∀ d ∈ vectorSearch envEmptyIndex.index ⟨"HR", true⟩
        reqPlain.max_results reqPlain.confidence_threshold, d.department = "HR")
    ∧ (∀ s ∈ (ragQuery envEmptyIndex reqPlain "HR" "u1").response.sources,
        s.department = "HR" ∧ s.department ≠ "Sales")
    ∧ (∀ srcs,
        SSEEvent.sources srcs ∈ (ragQueryStream envEmptyIndex reqPlain "HR" "u1").events →
        ∀ s ∈ srcs, s.department = "HR" ∧ s.department ≠ "Sales") :=
  C1_department_isolation envEmptyIndex reqPlain "HR" "Sales" "u1"
    (by decide) (by intro p hp; simp [envEmptyIndex] at hp)

-- ──────────────────────────────────────────────────────────────────────────
-- C2: streaming vs blocking
-- ──────────────────────────────────────────────────────────────────────────

/-- The streaming orchestrator performs no cache write on any path (there is
neither a cache check nor a cache set in `rag_query_stream`). -/
lemma streamGen_no_cache_writes (env : Env) (req : QueryRequest)
    (dept uid : String) (gen : StreamGen) :
    cacheWritesOf (ragQueryStreamGen env req dept uid gen).effects = [] := by
  by_cases hroute : env.decision.routed_to = RoutedAgent.rag
  · by_cases hdocs : vectorSearch env.index ⟨dept, true⟩ req.max_results
        req.confidence_threshold = []
    · rw [ragQueryStreamGen_no_docs env req dept uid gen hroute hdocs]
      cases hs : req.session_id <;>
        simp [cacheWritesOf, userHistoryEffects, assistantHistoryEffects, hs]
    · rw [ragQueryStreamGen_docs env req dept uid gen hroute hdocs]
      cases hs : req.session_id with
      | none =>
        cases gen <;> simp [cacheWritesOf, userHistoryEffects, hs]
      | some sid =>
        cases gen with
        | completes cs =>
          by_cases hfa : String.join cs = ""
          · simp [cacheWritesOf, userHistoryEffects, hs, hfa]
          · simp [cacheWritesOf, userHistoryEffects, hs, hfa]
        | raises cs =>
          by_cases hfa : String.join cs = ""
          · simp [cacheWritesOf, userHistoryEffects, hs, hfa]
          · simp [cacheWritesOf, userHistoryEffects, hs, hfa]
  · rw [ragQueryStreamGen_not_rag env req dept uid gen hroute]
    cases hs : req.session_id <;>
      simp [cacheWritesOf, userHistoryEffects, assistantHistoryEffects, hs]

/-- C2 (counterexample): on the same one-document input the blocking variant
writes one cache entry while the streaming variant writes none, and on the
same zero-document input the two variants produce different final answer
texts — so the claimed payload and answer equalities fail as stated. -/
theorem C2_equivalence_counterexample :
    (cacheWritesOf (ragQuery envHR reqPlain "HR" "u1").effects).length = 1
    ∧ cacheWritesOf (ragQueryStream envHR reqPlain "HR" "u1").effects = []
    ∧ (ragQuery envEmptyIndex reqPlain "HR" "u1").response.answer
        ≠ streamAnswer (ragQueryStream envEmptyIndex reqPlain "HR" "u1") := by
  refine ⟨by decide, by decide, by decide⟩

/-- C2 (amended): on identical inputs that retrieve at least one document
(same routing, same index and scores, same provider outcome), the blocking
and streaming variants produce the same final answer text; the streaming
variant writes nothing to the result cache on any path (the blocking
variant alone caches). -/
theorem C2_stream_blocking (env : Env) (req : QueryRequest) (dept uid : String)
    (hRag : env.decision.routed_to = RoutedAgent.rag)
    (hMiss : env.cache (cacheGetKey req.query dept) = none)
    (hDocs : vectorSearch env.index ⟨dept, true⟩ req.max_results
      req.confidence_threshold ≠ []) :
    (ragQuery env req dept uid).response.answer
      = streamAnswer (ragQueryStream env req dept uid)
    ∧ cacheWritesOf (ragQueryStream env req dept uid).effects = [] := by
  constructor
  · rw [ragQuery_docs env req dept uid hRag hMiss hDocs]
    unfold ragQueryStream
    rw [ragQueryStreamGen_docs env req dept uid _ hRag hDocs]
    simp [streamAnswer, List.filterMap_append, List.filterMap_map,
      Function.comp_def]
  · unfold ragQueryStream
    exact streamGen_no_cache_writes env req dept uid _

/-- C2 witness: the amended theorem at the concrete one-document HR
environment. -/
theorem C2_stream_blocking_witness :
    (ragQuery envHR reqPlain "HR" "u1").response.answer
      = streamAnswer (ragQueryStream envHR reqPlain "HR" "u1")
    ∧ cacheWritesOf (ragQueryStream envHR reqPlain "HR" "u1").effects = [] :=
  C2_stream_blocking envHR reqPlain "HR" "u1" rfl rfl (by decide)

-- ──────────────────────────────────────────────────────────────────────────
-- C3: query-log records of the blocking orchestrator
-- ──────────────────────────────────────────────────────────────────────────

/-- C3 (counterexample): a cache-hit query is served (`cached = true`) but
writes no QueryLog row at all — not one row with the cache-hit flag. -/
theorem C3_cache_hit_counterexample :
    (ragQuery envCacheHit reqPlain "HR" "u1").response.cached = true
    ∧ logsOf (ragQuery envCacheHit reqPlain "HR" "u1").effects = [] :=
  ⟨by decide, by decide⟩

/-- C3 (amended): the blocking orchestrator writes exactly one QueryLog row
when the query is routed away from RAG or answered positively after a cache
miss, and no row on the cache-hit and zero-result paths; at most one row is
ever written, and every written row carries the raw query, user id,
department and confidence tag "high" with the cache-hit flag always false,
records result count 0 and the routed agent's value on the non-RAG path,
and records the retrieval's result count and the RAG agent on the positive
path. -/
theorem C3_query_log (env : Env) (req : QueryRequest) (dept uid : String) :
    ((logsOf (ragQuery env req dept uid).effects).length = 1 ↔
      (env.decision.routed_to ≠ RoutedAgent.rag
        ∨ (env.cache (cacheGetKey req.query dept) = none
           ∧ vectorSearch env.index ⟨dept, true⟩ req.max_results
               req.confidence_threshold ≠ [])))
    ∧ (logsOf (ragQuery env req dept uid).effects).length ≤ 1
    ∧ ∀ rec ∈ logsOf (ragQuery env req dept uid).effects,
        rec.cached = false ∧ rec.query = req.query ∧ rec.user_id = uid
          ∧ rec.department = dept ∧ rec.confidence = "high"
          ∧ (env.decision.routed_to ≠ RoutedAgent.rag →
              rec.result_count = 0
              ∧ rec.routed_to = env.decision.routed_to.value)
          ∧ (env.decision.routed_to = RoutedAgent.rag →
              rec.result_count
                = (vectorSearch env.index ⟨dept, true⟩ req.max_results
                    req.confidence_threshold).length
              ∧ rec.routed_to = RoutedAgent.rag.value) := by
  by_cases hroute : env.decision.routed_to = RoutedAgent.rag
  · cases hc : env.cache (cacheGetKey req.query dept) with
    | some p =>
      have hlogs : logsOf (ragQuery env req dept uid).effects = [] := by
        rw [ragQuery_cache_hit env req dept uid p hroute hc]
        cases hs : req.session_id <;> simp [logsOf, userHistoryEffects, hs]
      refine ⟨?_, ?_, ?_⟩ <;> simp [hlogs, hroute, hc]
    | none =>
      by_cases hdocs : vectorSearch env.index ⟨dept, true⟩ req.max_results
          req.confidence_threshold = []
      · have hlogs : logsOf (ragQuery env req dept uid).effects = [] := by
          rw [ragQuery_no_docs env req dept uid hroute hc hdocs]
          cases hs : req.session_id <;>
            simp [logsOf, userHistoryEffects, assistantHistoryEffects,
              cacheResponseEffect, hs]
        refine ⟨?_, ?_, ?_⟩ <;> simp [hlogs, hroute, hc, hdocs]
      · have hlogs : logsOf (ragQuery env req dept uid).effects
            = [⟨req.query, uid, dept,
                (vectorSearch env.index ⟨dept, true⟩ req.max_results
                  req.confidence_threshold).length, false, "high",
                RoutedAgent.rag.value⟩] := by
          rw [ragQuery_docs env req dept uid hroute hc hdocs]
          cases hs : req.session_id <;>
            simp [logsOf, userHistoryEffects, assistantHistoryEffects,
              cacheResponseEffect, hs]
        refine ⟨?_, ?_, ?_⟩
        · simp [hlogs, hroute, hc, hdocs]
        · simp [hlogs]
        · intro rec hrec
          rw [hlogs] at hrec
          simp only [List.mem_singleton] at hrec
          subst hrec
          exact ⟨rfl, rfl, rfl, rfl, rfl,
            fun hne => absurd hroute hne, fun _ => ⟨rfl, rfl⟩⟩
  · have hlogs : logsOf (ragQuery env req dept uid).effects
        = [⟨req.query, uid, dept, 0, false, "high",
            env.decision.routed_to.value⟩] := by
      rw [ragQuery_not_rag env req dept uid hroute]
      cases hs : req.session_id <;>
        simp [logsOf, userHistoryEffects, assistantHistoryEffects, hs]
    refine ⟨?_, ?_, ?_⟩
    · simp [hlogs, hroute]
    · simp [hlogs]
    · intro rec hrec
      rw [hlogs] at hrec
      simp only [List.mem_singleton] at hrec
      subst hrec
      exact ⟨rfl, rfl, rfl, rfl, rfl,
        fun _ => ⟨rfl, rfl⟩, fun heq => absurd heq hroute⟩

-- ──────────────────────────────────────────────────────────────────────────
-- C8: streaming event ordering
-- ──────────────────────────────────────────────────────────────────────────

/-- Every streaming run, for any generator behaviour, opens with the sources
event and closes with the terminal event, with only message and error events
in between. -/
lemma streamGen_event_shape (env : Env) (req : QueryRequest)
    (dept uid : String) (gen : StreamGen) :
    ∃ srcs mid, (ragQueryStreamGen env req dept uid gen).events
        = SSEEvent.sources srcs :: (mid ++ [SSEEvent.terminal])
      ∧ ∀ e ∈ mid, (∃ c, e = SSEEvent.message c) ∨ e = SSEEvent.error := by
  by_cases hroute : env.decision.routed_to = RoutedAgent.rag
  · by_cases hdocs : vectorSearch env.index ⟨dept, true⟩ req.max_results
        req.confidence_threshold = []
    · rw [ragQueryStreamGen_no_docs env req dept uid gen hroute hdocs]
      refine ⟨[], [.message streamNoInfoAnswer], rfl, ?_⟩
      intro e he
      simp only [List.mem_singleton] at he
      subst he
      exact Or.inl ⟨_, rfl⟩
    · rw [ragQueryStreamGen_docs env req dept uid gen hroute hdocs]
      refine ⟨(vectorSearch env.index ⟨dept, true⟩ req.max_results
          req.confidence_threshold).map mkSource,
        (match gen with | .completes cs => cs | .raises cs => cs).map .message ++
          (if (match gen with | .completes _ => false | .raises _ => true)
            then [.error] else []), ?_, ?_⟩
      · simp [List.append_assoc]
      · intro e he
        rcases List.mem_append.mp he with he | he
        · obtain ⟨c, _, rfl⟩ := List.mem_map.mp he
          exact Or.inl ⟨c, rfl⟩
        · cases gen with
          | completes cs => simp at he
          | raises cs =>
            simp at he
            subst he
            exact Or.inr rfl
  · rw [ragQueryStreamGen_not_rag env req dept uid gen hroute]
    refine ⟨[], [.message (copilotMsg env.decision)], rfl, ?_⟩
    intro e he
    simp only [List.mem_singleton] at he
    subst he
    exact Or.inl ⟨_, rfl⟩

/-- C8: in every event sequence of the streaming orchestrator — for any
generator behaviour, including a mid-stream raise — the sources event comes
first (before every message event), the terminal event is emitted last, and
everything in between is a message or an error event (so an error event is
always followed by the terminal event). -/
theorem C8_stream_event_ordering (env : Env) (req : QueryRequest)
    (dept uid : String) (gen : StreamGen) :
    (∃ srcs mid, (ragQueryStreamGen env req dept uid gen).events
        = SSEEvent.sources srcs :: (mid ++ [SSEEvent.terminal])
      ∧ ∀ e ∈ mid, (∃ c, e = SSEEvent.message c) ∨ e = SSEEvent.error)
    ∧ ∃ srcs mid, (ragQueryStream env req dept uid).events
        = SSEEvent.sources srcs :: (mid ++ [SSEEvent.terminal])
      ∧ ∀ e ∈ mid, (∃ c, e = SSEEvent.message c) ∨ e = SSEEvent.error := by
  refine ⟨streamGen_event_shape env req dept uid gen, ?_⟩
  unfold ragQueryStream
  exact streamGen_event_shape env req dept uid _

-- ──────────────────────────────────────────────────────────────────────────
-- C9: negative-result handling in the blocking orchestrator
-- ──────────────────────────────────────────────────────────────────────────

/-- A request carrying a session id. -/
def reqSession : QueryRequest := ⟨some "s1", "q", 5, 0⟩

/-- C9: when routing reaches RAG, the cache misses and retrieval clears
nothing over the threshold, the blocking response has confidence "low" and
no sources, exactly one cache write is performed — the negative payload
under the department-scoped key with the 1800 s TTL, strictly shorter than
the positive 3600 s TTL — and with a session id the answer is still appended
to chat history. -/
theorem C9_negative_path (env : Env) (req : QueryRequest) (dept uid : String)
    (hRag : env.decision.routed_to = RoutedAgent.rag)
    (hMiss : env.cache (cacheGetKey req.query dept) = none)
    (hEmpty : vectorSearch env.index ⟨dept, true⟩ req.max_results
      req.confidence_threshold = []) :
    (ragQuery env req dept uid).response.confidence = "low"
    ∧ (ragQuery env req dept uid).response.sources = []
    ∧ cacheWritesOf (ragQuery env req dept uid).effects
        = [(cacheGetKey req.query dept, ⟨noInfoAnswer, [], "low"⟩, negativeTtl)]
    ∧ negativeTtl < positiveTtl
    ∧ ∀ sid, req.session_id = some sid →
        Effect.historyAppend sid ChatRole.assistant
            (ragQuery env req dept uid).response.answer
          ∈ (ragQuery env req dept uid).effects := by
  rw [ragQuery_no_docs env req dept uid hRag hMiss hEmpty]
  refine ⟨rfl, rfl, ?_, by decide, ?_⟩
  · cases hs : req.session_id <;>
      simp [cacheWritesOf, userHistoryEffects, assistantHistoryEffects,
        cacheResponseEffect, hs]
  · intro sid hsid
    simp [userHistoryEffects, assistantHistoryEffects, hsid]

/-- C9 witness: the theorem at a concrete empty-index environment with a
session id present. -/
theorem C9_negative_path_witness :
    (ragQuery envEmptyIndex reqSession "HR" "u1").response.confidence = "low"
    ∧ (ragQuery envEmptyIndex reqSession "HR" "u1").response.sources = []
    ∧ cacheWritesOf (ragQuery envEmptyIndex reqSession "HR" "u1").effects
        = [(cacheGetKey reqSession.query "HR", ⟨noInfoAnswer, [], "low"⟩,
            negativeTtl)]
    ∧ negativeTtl < positiveTtl
    ∧ ∀ sid, reqSession.session_id = some sid →
        Effect.historyAppend sid ChatRole.assistant
            (ragQuery envEmptyIndex reqSession "HR" "u1").response.answer
          ∈ (ragQuery envEmptyIndex reqSession "HR" "u1").effects :=
  C9_negative_path envEmptyIndex reqSession "HR" "u1" rfl rfl rfl

-- ──────────────────────────────────────────────────────────────────────────
-- C10: provider failure during blocking generation
-- ──────────────────────────────────────────────────────────────────────────

/-- C10: when the provider raises during blocking generation (after `pre`
chunks), no error propagates: the answer is the accumulated prefix followed
by the fixed error text, the response keeps confidence "high", the single
cache write stores that answer under the positive key with the full positive
TTL, and any later RAG-routed run over the updated cache serves that answer
from the cache. -/
theorem C10_generation_error (env : Env) (req : QueryRequest)
    (dept uid : String) (pre : List String)
    (hRag : env.decision.routed_to = RoutedAgent.rag)
    (hMiss : env.cache (cacheGetKey req.query dept) = none)
    (hDocs : vectorSearch env.index ⟨dept, true⟩ req.max_results
      req.confidence_threshold ≠ [])
    (hGen : env.gen = .raiseAfter pre) :
    (ragQuery env req dept uid).response.answer
        = String.join (pre ++ [generationErrorText])
    ∧ (ragQuery env req dept uid).response.confidence = "high"
    ∧ cacheWritesOf (ragQuery env req dept uid).effects
        = [(cacheGetKey req.query dept,
            ⟨String.join (pre ++ [generationErrorText]),
             (vectorSearch env.index ⟨dept, true⟩ req.max_results
               req.confidence_threshold).map mkSource, "high"⟩, positiveTtl)]
    ∧ ∀ env2 : Env, env2.decision.routed_to = RoutedAgent.rag →
        env2.cache = applyCacheWrites env.cache (ragQuery env req dept uid).effects →
        (ragQuery env2 req dept uid).response.cached = true
        ∧ (ragQuery env2 req dept uid).response.answer
            = String.join (pre ++ [generationErrorText]) := by
  have hgen2 : generateAnswerStream
      (vectorSearch env.index ⟨dept, true⟩ req.max_results
        req.confidence_threshold) env.gen
      = pre ++ [generationErrorText] := by
    unfold generateAnswerStream
    rw [hGen]
    simp [hDocs]
  have hrun := ragQuery_docs env req dept uid hRag hMiss hDocs
  refine ⟨?_, ?_, ?_, ?_⟩
  · rw [hrun]
    simp [hgen2]
  · rw [hrun]
  · rw [hrun]
    cases hs : req.session_id <;>
      simp [cacheWritesOf, userHistoryEffects, assistantHistoryEffects,
        cacheResponseEffect, hs, hgen2]
  · intro env2 hr2 hc2
    have hkey : env2.cache (cacheGetKey req.query dept)
        = some ⟨String.join (pre ++ [generationErrorText]),
            (vectorSearch env.index ⟨dept, true⟩ req.max_results
              req.confidence_threshold).map mkSource, "high"⟩ := by
      rw [hc2, hrun]
      cases hs : req.session_id <;>
        simp [applyCacheWrites, userHistoryEffects, assistantHistoryEffects,
          cacheResponseEffect, hs, hgen2]
    rw [ragQuery_cache_hit env2 req dept uid _ hr2 hkey]
    exact ⟨rfl, rfl⟩

/-- C10 witness: the theorem at the concrete environment whose provider
raises before yielding anything: the cached answer is exactly the fixed
error text. -/
theorem C10_generation_error_witness :
    (ragQuery envGenFail reqPlain "HR" "u1").response.answer
        = String.join ([] ++ [generationErrorText])
    ∧ (ragQuery envGenFail reqPlain "HR" "u1").response.confidence = "high"
    ∧ cacheWritesOf (ragQuery envGenFail reqPlain "HR" "u1").effects
        = [(cacheGetKey reqPlain.query "HR",
            ⟨String.join ([] ++ [generationErrorText]),
             (vectorSearch envGenFail.index ⟨"HR", true⟩ reqPlain.max_results
               reqPlain.confidence_threshold).map mkSource, "high"⟩, positiveTtl)]
    ∧ ∀ env2 : Env, env2.decision.routed_to = RoutedAgent.rag →
        env2.cache = applyCacheWrites envGenFail.cache
          (ragQuery envGenFail reqPlain "HR" "u1").effects →
        (ragQuery env2 reqPlain "HR" "u1").response.cached = true
        ∧ (ragQuery env2 reqPlain "HR" "u1").response.answer
            = String.join ([] ++ [generationErrorText]) :=
  C10_generation_error envGenFail reqPlain "HR" "u1" [] rfl rfl (by decide) rfl
